import Mathlib

/-!
Shallow embedding of the internalstack/server session/field correlation
engine (src/src/index.ts, second variant at lines 833-1975 of the
concatenated file, which is the variant all field elements, the group
executor and the message handler cited by the claims live in; the first
variant's resolve branch differs only in when the warn message is sent).

JavaScript runtime values are modelled by `JSValue`.  JS numbers are
abstracted as integers: every claim below only inspects `typeof` of a
number or its truthiness, never floating-point arithmetic.
-/

namespace InternalStack

/-- A JavaScript runtime value as it appears on the wire and in the
engine: the JSON constructors plus `undefined` (absent object fields). -/
inductive JSValue where
  | vundefined : JSValue
  | vnull : JSValue
  | vbool : Bool → JSValue
  | vnum : Int → JSValue
  | vstr : String → JSValue
  | varr : List JSValue → JSValue
  | vobj : List (String × JSValue) → JSValue
deriving Repr

mutual

def JSValue.beq : JSValue → JSValue → Bool
  | .vundefined, .vundefined => true
  | .vnull, .vnull => true
  | .vbool a, .vbool b => a == b
  | .vnum a, .vnum b => a == b
  | .vstr a, .vstr b => a == b
  | .varr a, .varr b => JSValue.beqList a b
  | .vobj a, .vobj b => JSValue.beqFields a b
  | _, _ => false

def JSValue.beqList : List JSValue → List JSValue → Bool
  | [], [] => true
  | a :: as, b :: bs => JSValue.beq a b && JSValue.beqList as bs
  | _, _ => false

def JSValue.beqFields : List (String × JSValue) → List (String × JSValue) → Bool
  | [], [] => true
  | (ka, va) :: as, (kb, vb) :: bs => ka == kb && JSValue.beq va vb && JSValue.beqFields as bs
  | _, _ => false

end

mutual

theorem JSValue.beq_iff : ∀ a b : JSValue, JSValue.beq a b = true ↔ a = b
  | .vundefined, .vundefined => by simp [JSValue.beq]
  | .vundefined, .vnull => by simp [JSValue.beq]
  | .vundefined, .vbool _ => by simp [JSValue.beq]
  | .vundefined, .vnum _ => by simp [JSValue.beq]
  | .vundefined, .vstr _ => by simp [JSValue.beq]
  | .vundefined, .varr _ => by simp [JSValue.beq]
  | .vundefined, .vobj _ => by simp [JSValue.beq]
  | .vnull, .vundefined => by simp [JSValue.beq]
  | .vnull, .vnull => by simp [JSValue.beq]
  | .vnull, .vbool _ => by simp [JSValue.beq]
  | .vnull, .vnum _ => by simp [JSValue.beq]
  | .vnull, .vstr _ => by simp [JSValue.beq]
  | .vnull, .varr _ => by simp [JSValue.beq]
  | .vnull, .vobj _ => by simp [JSValue.beq]
  | .vbool _, .vundefined => by simp [JSValue.beq]
  | .vbool _, .vnull => by simp [JSValue.beq]
  | .vbool a, .vbool b => by simp [JSValue.beq]
  | .vbool _, .vnum _ => by simp [JSValue.beq]
  | .vbool _, .vstr _ => by simp [JSValue.beq]
  | .vbool _, .varr _ => by simp [JSValue.beq]
  | .vbool _, .vobj _ => by simp [JSValue.beq]
  | .vnum _, .vundefined => by simp [JSValue.beq]
  | .vnum _, .vnull => by simp [JSValue.beq]
  | .vnum _, .vbool _ => by simp [JSValue.beq]
  | .vnum a, .vnum b => by simp [JSValue.beq]
  | .vnum _, .vstr _ => by simp [JSValue.beq]
  | .vnum _, .varr _ => by simp [JSValue.beq]
  | .vnum _, .vobj _ => by simp [JSValue.beq]
  | .vstr _, .vundefined => by simp [JSValue.beq]
  | .vstr _, .vnull => by simp [JSValue.beq]
  | .vstr _, .vbool _ => by simp [JSValue.beq]
  | .vstr _, .vnum _ => by simp [JSValue.beq]
  | .vstr a, .vstr b => by simp [JSValue.beq]
  | .vstr _, .varr _ => by simp [JSValue.beq]
  | .vstr _, .vobj _ => by simp [JSValue.beq]
  | .varr _, .vundefined => by simp [JSValue.beq]
  | .varr _, .vnull => by simp [JSValue.beq]
  | .varr _, .vbool _ => by simp [JSValue.beq]
  | .varr _, .vnum _ => by simp [JSValue.beq]
  | .varr _, .vstr _ => by simp [JSValue.beq]
  | .varr a, .varr b => by
      simp only [JSValue.beq, JSValue.varr.injEq]
      exact JSValue.beqList_iff a b
  | .varr _, .vobj _ => by simp [JSValue.beq]
  | .vobj _, .vundefined => by simp [JSValue.beq]
  | .vobj _, .vnull => by simp [JSValue.beq]
  | .vobj _, .vbool _ => by simp [JSValue.beq]
  | .vobj _, .vnum _ => by simp [JSValue.beq]
  | .vobj _, .vstr _ => by simp [JSValue.beq]
  | .vobj _, .varr _ => by simp [JSValue.beq]
  | .vobj a, .vobj b => by
      simp only [JSValue.beq, JSValue.vobj.injEq]
      exact JSValue.beqFields_iff a b

theorem JSValue.beqList_iff : ∀ a b : List JSValue, JSValue.beqList a b = true ↔ a = b
  | [], [] => by simp [JSValue.beqList]
  | [], _ :: _ => by simp [JSValue.beqList]
  | _ :: _, [] => by simp [JSValue.beqList]
  | a :: as, b :: bs => by
      simp only [JSValue.beqList, Bool.and_eq_true, List.cons.injEq]
      exact and_congr (JSValue.beq_iff a b) (JSValue.beqList_iff as bs)

theorem JSValue.beqFields_iff :
    ∀ a b : List (String × JSValue), JSValue.beqFields a b = true ↔ a = b
  | [], [] => by simp [JSValue.beqFields]
  | [], _ :: _ => by simp [JSValue.beqFields]
  | _ :: _, [] => by simp [JSValue.beqFields]
  | (ka, va) :: as, (kb, vb) :: bs => by
      simp only [JSValue.beqFields, Bool.and_eq_true, List.cons.injEq, Prod.mk.injEq,
        beq_iff_eq, and_assoc]
      exact and_congr Iff.rfl
        (and_congr (JSValue.beq_iff va vb) (JSValue.beqFields_iff as bs))

end

instance : DecidableEq JSValue := fun a b =>
  decidable_of_iff (JSValue.beq a b = true) (JSValue.beq_iff a b)

/-- JavaScript truthiness, as used by `if (!message)`, `if (!input)`,
`options?.inline || true` and the like. -/
def truthy : JSValue → Bool
  | .vundefined => false
  | .vnull => false
  | .vbool b => b
  | .vnum n => n ≠ 0
  | .vstr s => s ≠ ""
  | .varr _ => true
  | .vobj _ => true

/-- JavaScript `a || b`: `a` when truthy, otherwise `b`. -/
def jsOr (a b : JSValue) : JSValue := if truthy a then a else b

/-- JavaScript member access `obj.key` as used on a parsed message:
`undefined` on non-objects and missing keys. -/
def getField : JSValue → String → JSValue
  | .vobj fields, key =>
      match fields.find? (fun p => p.1 = key) with
      | some p => p.2
      | none => .vundefined
  | _, _ => .vundefined

mutual

/-- JavaScript string coercion as performed by a template literal
(used in the handler's event keys built from inbound message fields). -/
def jsToDisplayString : JSValue → String
  | .vundefined => "undefined"
  | .vnull => "null"
  | .vbool b => if b then "true" else "false"
  | .vnum n => toString n
  | .vstr s => s
  | .varr xs => jsListToDisplayString xs
  | .vobj _ => "[object Object]"

def jsListToDisplayString : List JSValue → String
  | [] => ""
  | [x] => jsToDisplayString x
  | x :: y :: xs => jsToDisplayString x ++ "," ++ jsListToDisplayString (y :: xs)

end

mutual

/-- Success of `jsonValueValidator.safeParse` (src/src/validators.ts, the
recursive zod union over string, number, boolean, null, array, record):
holds exactly of JSON values, i.e. everything except `undefined`
(also nested). -/
def isJsonValue : JSValue → Bool
  | .vundefined => false
  | .vnull => true
  | .vbool _ => true
  | .vnum _ => true
  | .vstr _ => true
  | .varr xs => isJsonValueList xs
  | .vobj fs => isJsonValueFields fs

def isJsonValueList : List JSValue → Bool
  | [] => true
  | x :: xs => isJsonValue x && isJsonValueList xs

def isJsonValueFields : List (String × JSValue) → Bool
  | [] => true
  | (_, v) :: fs => isJsonValue v && isJsonValueFields fs

end

/-- `eventId` from the source: `` `${sessionId}:${fieldId}:${type}` ``. -/
def eventId (sessionId fieldId : String) (phase : String) : String :=
  sessionId ++ ":" ++ fieldId ++ ":" ++ phase

/-- An outbound message, as serialized by the `ws.send(JSON.stringify(...))`
calls.  `warn` keeps its `fieldId`/`sessionId` as raw `JSValue`s because the
message handler echoes the inbound (unvalidated) fields into it; the other
messages are built on the element side from the engine's own strings.
The `render` descriptor carries the parameter fields the claims inspect
(`type`, `label`, and for colorpicker `inline`); the pass-through spreading
of the remaining caller options is not observed by any claim. -/
inductive OutMsg where
  | render : String → String → List (String × JSValue) → OutMsg
  | warn : JSValue → JSValue → JSValue → OutMsg
  | destroy : String → String → OutMsg
  | patch : String → String → JSValue → OutMsg
  | updatePeers : OutMsg
  | complete : String → OutMsg
  | groupComplete : String → OutMsg
deriving Repr, DecidableEq

/-- One observable step of the engine: a sent message, a registry
mutation, an emitted correlation event, or a suspended operation being
resolved with a value. -/
inductive Step where
  | sent : OutMsg → Step
  | validatorRegistered : String → Step
  | patchListenerRegistered : String → Step
  | waitBegan : String → Step
  | eventEmitted : String → JSValue → Step
  | opResolved : String → JSValue → Step
deriving Repr, DecidableEq

/-- A persistent `eventEmitter.on` listener opened by autocomplete /
address / filterable table: on each patch event it sends a `patch` message
whose `patchedState` is the (caller-supplied, hence abstract) fetch
applied to the event payload. -/
structure PatchListener where
  key : String
  fieldId : String
  sessionId : String
  fetch : JSValue → JSValue

/-- A one-shot `eventEmitter.once` waiter installed by `waitForEvent`:
on delivery it runs the element's callback (optionally
`removeAllListeners` on a patch key, optionally a standalone `destroy`
send) and then resolves the suspended operation with the payload, put
through the optional post-processing (the address element's `pick`). -/
structure Waiter where
  key : String
  removesListenersOn : Option String
  sendsDestroy : Option (String × String)
  post : Option (JSValue → JSValue)

/-- The process-wide mutable state: the validator map and the correlation
broker's listener table (split into persistent patch listeners and
one-shot waiters).  Validator-map keys are the raw `JSValue`s used with
`Map.get`/`Map.set` (the engine stores string field ids; inbound lookups
may carry anything). -/
structure Sys where
  fieldValidators : List (JSValue × (JSValue → JSValue))
  patchListeners : List PatchListener
  waiters : List Waiter

def emptySys : Sys := ⟨[], [], []⟩

/-- JS `Map.get`. -/
def mapGet (m : List (JSValue × (JSValue → JSValue))) (k : JSValue) :
    Option (JSValue → JSValue) :=
  (m.find? (fun p => p.1 = k)).map (fun p => p.2)

/-- JS `Map.set`: overwrite in place, or append. -/
def mapSet (m : List (JSValue × (JSValue → JSValue))) (k : JSValue)
    (v : JSValue → JSValue) : List (JSValue × (JSValue → JSValue)) :=
  if m.any (fun p => p.1 = k) then
    m.map (fun p => if p.1 = k then (k, v) else p)
  else m ++ [(k, v)]

/-- JS `Map.delete`. -/
def mapDelete (m : List (JSValue × (JSValue → JSValue))) (k : JSValue) :
    List (JSValue × (JSValue → JSValue)) :=
  m.filter (fun p => ¬ p.1 = k)

/-- Deliver an event to one woken waiter: run its `once` callback
(remove patch listeners / send the standalone destroy), then resolve the
suspended operation with the (possibly post-processed) payload. -/
def wakeWaiter (s : Sys) (w : Waiter) (payload : JSValue) : Sys × List Step :=
  let s1 : Sys :=
    match w.removesListenersOn with
    | some k => { s with patchListeners := s.patchListeners.filter (fun l => ¬ l.key = k) }
    | none => s
  let destroySteps : List Step :=
    match w.sendsDestroy with
    | some (fid, sid) => [Step.sent (.destroy fid sid)]
    | none => []
  let value : JSValue :=
    match w.post with
    | some f => f payload
    | none => payload
  (s1, destroySteps ++ [Step.opResolved w.key value])

/-- Wake a list of waiters in registration order, threading the state. -/
def wakeAll (s : Sys) (ws : List Waiter) (payload : JSValue) : Sys × List Step :=
  match ws with
  | [] => (s, [])
  | w :: rest =>
      ((wakeAll (wakeWaiter s w payload).1 rest payload).1,
       (wakeWaiter s w payload).2 ++ (wakeAll (wakeWaiter s w payload).1 rest payload).2)

/-- `eventEmitter.emit(key, payload)`: every persistent patch listener on
the key sends its patch message; every one-shot waiter on the key is
removed and woken. -/
def emitEvent (s : Sys) (key : String) (payload : JSValue) : Sys × List Step :=
  ((wakeAll { s with waiters := s.waiters.filter (fun w => ¬ w.key = key) }
      (s.waiters.filter (fun w => w.key = key)) payload).1,
   Step.eventEmitted key payload ::
     (s.patchListeners.filter (fun l => l.key = key)).map
       (fun l => Step.sent (.patch l.fieldId l.sessionId (l.fetch payload))) ++
     (wakeAll { s with waiters := s.waiters.filter (fun w => ¬ w.key = key) }
        (s.waiters.filter (fun w => w.key = key)) payload).2)

/-- A raw inbound websocket payload: either a string that is not valid
JSON, or the JSON value it parses to. -/
inductive RawPayload where
  | invalidJson : String → RawPayload
  | json : JSValue → RawPayload

/-- `safeParse` from the source: `safeDestr` throws on invalid JSON, the
catch returns the literal `false`. -/
def safeParse : RawPayload → JSValue
  | .invalidJson _ => .vbool false
  | .json v => v

/-- The `WebsocketEvent.message` handler (second variant, source lines
929-979): drop falsy parses; `startSession` emits the session event and
acknowledges with `updatePeers`; `patch` re-emits on the field's patch
key; `resolve` looks up the validator — absent: wake the resolve key with
the raw value; present: invoke it, send the `warn` message carrying the
validation result, and only on `=== true` delete the entry and wake the
resolve key. -/
def handleMessage (s : Sys) (raw : RawPayload) : Sys × List Step :=
  let message := safeParse raw
  if ¬ truthy message then (s, [])
  else
    let action := getField message "action"
    if action = .vstr "startSession" then
      (s, [Step.eventEmitted "startSession"
             (.vobj [("sessionId", getField message "sessionId"),
                     ("user", getField message "user")]),
           Step.sent .updatePeers])
    else if action = .vstr "patch" then
      emitEvent s
        (eventId (jsToDisplayString (getField message "sessionId"))
                 (jsToDisplayString (getField message "fieldId")) "patch")
        (getField message "data")
    else if action = .vstr "resolve" then
      let mfid := getField message "fieldId"
      let key := eventId (jsToDisplayString (getField message "sessionId"))
                         (jsToDisplayString mfid) "resolve"
      match mapGet s.fieldValidators mfid with
      | none =>
          let s1 : Sys := { s with fieldValidators := mapDelete s.fieldValidators mfid }
          emitEvent s1 key (getField message "fieldValue")
      | some customValidator =>
          let validationResult := customValidator (getField message "fieldValue")
          let warnStep := Step.sent
            (.warn mfid (getField message "sessionId") validationResult)
          if validationResult = .vbool true then
            let s1 : Sys := { s with fieldValidators := mapDelete s.fieldValidators mfid }
            ((emitEvent s1 key (getField message "fieldValue")).1,
             warnStep :: (emitEvent s1 key (getField message "fieldValue")).2)
          else (s, [warnStep])
    else (s, [])

/-- The 17 awaited input field kinds of the second variant's `elements`. -/
inductive FieldKind where
  | text | number | currency | markdown | richText | slider | email
  | checkbox | checkboxes | radio | select | autocomplete | address
  | date | datetimeLocal | time | colorpicker | table
deriving Repr, DecidableEq

/-- `elements.input.text`'s `defaultCustomValidator`. -/
def textDefaultValidator (input : JSValue) : JSValue :=
  match input with
  | .vstr s => if s = "" then .vstr "Required" else .vbool true
  | _ => .vstr "Expected string"

/-- `elements.input.number`'s `defaultCustomValidator`. -/
def numberDefaultValidator (input : JSValue) : JSValue :=
  match input with
  | .vnum _ => .vbool true
  | _ => .vstr "Invalid number"

/-- `elements.input.currency`'s `defaultCustomValidator`. -/
def currencyDefaultValidator (input : JSValue) : JSValue :=
  match input with
  | .vstr s => if s = "" then .vstr "Required" else .vbool true
  | _ => .vstr "Invalid string"

/-- `elements.input.markdown`'s `defaultValidator`. -/
def markdownDefaultValidator (input : JSValue) : JSValue :=
  match input with
  | .vstr s => if s = "" then .vstr "Required" else .vbool true
  | _ => .vstr "Expected string"

/-- `elements.input.richText`'s `defaultValidator`: rejects the editor's
empty document `<p></p>` rather than the empty string. -/
def richTextDefaultValidator (input : JSValue) : JSValue :=
  match input with
  | .vstr s => if s = "<p></p>" then .vstr "Required" else .vbool true
  | _ => .vstr "Expected string"

/-- `elements.input.slider`'s `defaultValidator`. -/
def sliderDefaultValidator (input : JSValue) : JSValue :=
  match input with
  | .vnum _ => .vbool true
  | _ => .vstr "Invalid number"

/-- `elements.input.email`'s `defaultValidator`:
`input.includes(Char) || message` after the string check. -/
def emailDefaultValidator (input : JSValue) : JSValue :=
  match input with
  | .vstr s => if s.contains '@' then .vbool true else .vstr "Invalid email address"
  | _ => .vstr "Expected string"

/-- `elements.input.checkbox`'s `defaultValidator`. -/
def checkboxDefaultValidator (input : JSValue) : JSValue :=
  match input with
  | .vbool _ => .vbool true
  | _ => .vstr "Expected boolean"

/-- `elements.input.checkboxes`'s `defaultValidator` (`Array.isArray`). -/
def checkboxesDefaultValidator (input : JSValue) : JSValue :=
  match input with
  | .varr _ => .vbool true
  | _ => .vstr "Expected array"

/-- `elements.input.radio`'s `defaultValidator` (truthiness). -/
def radioDefaultValidator (input : JSValue) : JSValue :=
  if ¬ truthy input then .vstr "Required" else .vbool true

/-- `elements.input.select`'s `defaultValidator` (truthiness). -/
def selectDefaultValidator (input : JSValue) : JSValue :=
  if ¬ truthy input then .vstr "Required" else .vbool true

/-- `elements.input.autocomplete`'s `defaultValidator`: `null` is
rejected as required, everything else goes through
`jsonValueValidator.safeParse`; the zod issue text of a failed parse is
abstracted as its default union message. -/
def autocompleteDefaultValidator (input : JSValue) : JSValue :=
  if input = .vnull then .vstr "Required"
  else if isJsonValue input then .vbool true
  else .vstr "Invalid input"

/-- `elements.input.address`'s `defaultValidator` (truthiness). -/
def addressDefaultValidator (input : JSValue) : JSValue :=
  if ¬ truthy input then .vstr "Required" else .vbool true

/-- `elements.input.date`'s `defaultValidator`. -/
def dateDefaultValidator (input : JSValue) : JSValue :=
  match input with
  | .vstr s => if s = "" then .vstr "Required" else .vbool true
  | _ => .vstr "Expected string"

/-- `elements.input.datetimeLocal`'s `defaultValidator`. -/
def datetimeLocalDefaultValidator (input : JSValue) : JSValue :=
  match input with
  | .vstr s => if s = "" then .vstr "Required" else .vbool true
  | _ => .vstr "Expected string"

/-- `elements.input.time`'s `defaultValidator`. -/
def timeDefaultValidator (input : JSValue) : JSValue :=
  match input with
  | .vstr s => if s = "" then .vstr "Required" else .vbool true
  | _ => .vstr "Expected string"

/-- `elements.input.colorpicker`'s `defaultValidator`. -/
def colorpickerDefaultValidator (input : JSValue) : JSValue :=
  match input with
  | .vstr s => if s = "" then .vstr "Required" else .vbool true
  | _ => .vstr "Expected string"

/-- `elements.input.table`'s `defaultValidator`. -/
def tableDefaultValidator (input : JSValue) : JSValue :=
  match input with
  | .varr xs => if xs.isEmpty then .vstr "Required" else .vbool true
  | _ => .vstr "Expected array"

/-- The per-kind default validator installed when the caller supplies no
`customValidator`. -/
def defaultValidator : FieldKind → JSValue → JSValue
  | .text => textDefaultValidator
  | .number => numberDefaultValidator
  | .currency => currencyDefaultValidator
  | .markdown => markdownDefaultValidator
  | .richText => richTextDefaultValidator
  | .slider => sliderDefaultValidator
  | .email => emailDefaultValidator
  | .checkbox => checkboxDefaultValidator
  | .checkboxes => checkboxesDefaultValidator
  | .radio => radioDefaultValidator
  | .select => selectDefaultValidator
  | .autocomplete => autocompleteDefaultValidator
  | .address => addressDefaultValidator
  | .date => dateDefaultValidator
  | .datetimeLocal => datetimeLocalDefaultValidator
  | .time => timeDefaultValidator
  | .colorpicker => colorpickerDefaultValidator
  | .table => tableDefaultValidator

/-- The `type` string placed in the render descriptor (checkboxes render
as `checkbox`, address as `autocomplete`, datetimeLocal as
`datetime-local`). -/
def renderTypeString : FieldKind → String
  | .text => "text"
  | .number => "number"
  | .currency => "currency"
  | .markdown => "markdown"
  | .richText => "richText"
  | .slider => "slider"
  | .email => "email"
  | .checkbox => "checkbox"
  | .checkboxes => "checkbox"
  | .radio => "radio"
  | .select => "select"
  | .autocomplete => "autocomplete"
  | .address => "autocomplete"
  | .date => "date"
  | .datetimeLocal => "datetime-local"
  | .time => "time"
  | .colorpicker => "colorpicker"
  | .table => "table"

/-- The render descriptor fields the claims observe: the `type` and
`label` every element sets, plus the colorpicker's
`inline: options?.inline || true`.  The remaining spread of caller
options into the descriptor is pass-through and unobserved here. -/
def renderParams (k : FieldKind) (rawOptions : JSValue) (label : String) :
    List (String × JSValue) :=
  [("type", .vstr (renderTypeString k)), ("label", .vstr label)] ++
    (if k = .colorpicker then [("inline", jsOr (getField rawOptions "inline") (.vbool true))]
     else [])

/-- Whether the element opens a patch channel: autocomplete and address
always do, a table only when `options?.filterable` is truthy. -/
def opensPatchChannel (k : FieldKind) (filterable : Bool) : Bool :=
  k = .autocomplete ∨ k = .address ∨ (k = .table ∧ filterable)

/-- The caller-visible knobs of a field element run that the claims
depend on. -/
structure FieldOptions where
  customValidator : Option (JSValue → JSValue) := none
  rawOptions : JSValue := .vundefined
  pick : Option (JSValue → JSValue) := none
  filterable : Bool := false
  fetch : JSValue → JSValue := fun _ => .vundefined

/-- One field element invocation up to its suspension point, following
the uniform structure of every `elements.input.*` function in the
source: send the `render` message (`renderFieldInForm` with the fresh
`field_`-prefixed id supplied as `fieldId`), open the patch channel if
the kind has one, `fieldValidators.set(renderedFieldId,
options?.customValidator || defaultValidator)`, then install the
one-shot resolve waiter (`waitForEvent`) whose callback sends the
standalone `destroy` — except for autocomplete and address, whose
callbacks only remove the patch listeners and never send a destroy. -/
def fieldSetup (k : FieldKind) (sessionId fieldId label : String)
    (isStandalone : Bool) (opts : FieldOptions) (s : Sys) : Sys × List Step :=
  let renderStep := Step.sent (.render fieldId sessionId (renderParams k opts.rawOptions label))
  let patchKey := eventId sessionId fieldId "patch"
  let s1 : Sys :=
    if opensPatchChannel k opts.filterable then
      { s with patchListeners :=
          s.patchListeners ++ [⟨patchKey, fieldId, sessionId, opts.fetch⟩] }
    else s
  let listenerSteps : List Step :=
    if opensPatchChannel k opts.filterable then [Step.patchListenerRegistered patchKey]
    else []
  let validator := opts.customValidator.getD (defaultValidator k)
  let s2 : Sys := { s1 with fieldValidators := mapSet s1.fieldValidators (.vstr fieldId) validator }
  let resolveKey := eventId sessionId fieldId "resolve"
  let waiter : Waiter :=
    if k = .autocomplete ∨ k = .address then
      ⟨resolveKey, some patchKey, none, if k = .address then opts.pick else none⟩
    else
      ⟨resolveKey, none, if isStandalone then some (fieldId, sessionId) else none, none⟩
  let s3 : Sys := { s2 with waiters := s2.waiters ++ [waiter] }
  (s3, renderStep :: listenerSteps ++ [Step.validatorRegistered fieldId, Step.waitBegan resolveKey])

/-- A well-formed inbound `resolve` message. -/
def resolveMsg (sessionId fieldId : String) (v : JSValue) : RawPayload :=
  .json (.vobj [("action", .vstr "resolve"), ("sessionId", .vstr sessionId),
                ("fieldId", .vstr fieldId), ("fieldValue", v)])

/-- A well-formed inbound `patch` message. -/
def patchMsg (sessionId fieldId : String) (data : JSValue) : RawPayload :=
  .json (.vobj [("action", .vstr "patch"), ("sessionId", .vstr sessionId),
                ("fieldId", .vstr fieldId), ("data", data)])

/-- Standalone scenario: run one field element to its suspension point
in a fresh process, then deliver one inbound `resolve` carrying `v`;
the full observable trace. -/
def standaloneRun (k : FieldKind) (opts : FieldOptions) (v : JSValue) : List Step :=
  (fieldSetup k "s1" "f1" "L" true opts emptySys).2 ++
    (handleMessage (fieldSetup k "s1" "f1" "L" true opts emptySys).1
      (resolveMsg "s1" "f1" v)).2

/-- Whether a step is a sent `destroy` message for the given field. -/
def isDestroyStep (fieldId sessionId : String) : Step → Bool
  | Step.sent (.destroy fid sid) => fid = fieldId && sid = sessionId
  | _ => false

/-- The destroy messages for a given field inside a trace. -/
def destroyCount (t : List Step) (fieldId sessionId : String) : Nat :=
  (t.filter (isDestroyStep fieldId sessionId)).length

/-- The values with which suspended operations were resolved, in order. -/
def resolvedValues (t : List Step) : List JSValue :=
  t.filterMap (fun st => match st with
    | Step.opResolved _ v => some v
    | _ => none)

/-- Whether a step is a sent `warn` message. -/
def isWarnStep : Step → Bool
  | Step.sent (.warn _ _ _) => true
  | _ => false

/-- Whether a step is a sent `patch` message. -/
def isPatchMsgStep : Step → Bool
  | Step.sent (.patch _ _ _) => true
  | _ => false

/-- Whether a trace contains a sent `warn` message. -/
def hasWarn (t : List Step) : Bool := t.any isWarnStep

/-- Whether a trace contains a sent `patch` message. -/
def hasPatchMsg (t : List Step) : Bool := t.any isPatchMsgStep

/-- Settle promises: each schedule entry `(i, v)` settles promise `i`
with value `v`; a promise settles at most once (later entries for an
already-settled slot are ignored, as a JS promise resolves once). -/
def settleAll (slots : List (Option JSValue)) (schedule : List (Nat × JSValue)) :
    List (Option JSValue) :=
  schedule.foldl (fun acc p =>
    match acc.get? p.1 with
    | some none => acc.set p.1 (some p.2)
    | _ => acc) slots

/-- `Promise.all` over `n` element promises under a resolution schedule:
completes with the values in slot (builder) order exactly when every
promise has settled, regardless of the order the schedule settled them. -/
def promiseAll (n : Nat) (schedule : List (Nat × JSValue)) : Option (List JSValue) :=
  let final := settleAll (List.replicate n none) schedule
  if final.all (fun o => o.isSome) then some (final.reduceOption) else none

/-- `sessionHandler.group` (source lines 1914-1939): collect the builder's
element promises, `setImmediate` a `Promise.all` whose completion emits
the `` `${sessionId}:${groupId}` `` event carrying the result array, and
suspend on that key with a callback that sends the single `groupComplete`
message.  If some element never resolves, the group never completes and
the trace is empty. -/
def groupRun (sessionId groupId : String) (n : Nat)
    (schedule : List (Nat × JSValue)) : List Step :=
  match promiseAll n schedule with
  | some results =>
      let key := sessionId ++ ":" ++ groupId
      [Step.eventEmitted key (.varr results),
       Step.sent (.groupComplete sessionId),
       Step.opResolved key (.varr results)]
  | none => []

/-- Scenario: run a field element to its suspension point, deliver a
`resolve`, then deliver an inbound `patch` event for the same field's
patch key; the steps produced by that final patch delivery. -/
def patchAfterResolveSteps (k : FieldKind) (opts : FieldOptions)
    (v patchData : JSValue) : List Step :=
  (handleMessage
    (handleMessage (fieldSetup k "s1" "f1" "L" true opts emptySys).1
      (resolveMsg "s1" "f1" v)).1
    (patchMsg "s1" "f1" patchData)).2

/-- The engine state after a field element's setup and one inbound
`resolve` carrying `v`. -/
def sysAfterResolve (k : FieldKind) (opts : FieldOptions) (v : JSValue) : Sys :=
  (handleMessage (fieldSetup k "s1" "f1" "L" true opts emptySys).1
    (resolveMsg "s1" "f1" v)).1

/-- Scenario: a standalone field of kind `k` with a caller-supplied
validator `cv`, then two consecutive inbound `resolve` events carrying
`v1` and `v2`; returns the post-state and steps of each delivery. -/
def twoResolveRun (k : FieldKind) (cv : JSValue → JSValue) (v1 v2 : JSValue) :
    (Sys × List Step) × (Sys × List Step) :=
  let r1 := handleMessage
    (fieldSetup k "s1" "f1" "L" true { customValidator := some cv } emptySys).1
    (resolveMsg "s1" "f1" v1)
  (r1, handleMessage r1.1 (resolveMsg "s1" "f1" v2))

/-- A state with the text default validator registered for field `f1` of
session `s1` and that field's resolve waiter pending (exactly the state
after `fieldSetup .text` in a fresh process). -/
def pendingTextFieldState : Sys :=
  ⟨[(.vstr "f1", textDefaultValidator)], [],
   [⟨eventId "s1" "f1" "resolve", none, some ("f1", "s1"), none⟩]⟩

/-- A state with a pending resolve waiter for `(s1, f1)` and no
registered validator for `f1`. -/
def pendingUnvalidatedFieldState : Sys :=
  ⟨[], [], [⟨eventId "s1" "f1" "resolve", none, none, none⟩]⟩

/-! ### Helper lemmas -/

theorem wakeWaiter_fieldValidators (s : Sys) (w : Waiter) (p : JSValue) :
    (wakeWaiter s w p).1.fieldValidators = s.fieldValidators := by
  unfold wakeWaiter
  cases w.removesListenersOn <;> rfl

theorem wakeAll_fieldValidators (ws : List Waiter) (s : Sys) (p : JSValue) :
    (wakeAll s ws p).1.fieldValidators = s.fieldValidators := by
  induction ws generalizing s with
  | nil => rfl
  | cons w rest ih =>
      unfold wakeAll
      rw [ih, wakeWaiter_fieldValidators]

theorem emitEvent_fieldValidators (s : Sys) (key : String) (p : JSValue) :
    (emitEvent s key p).1.fieldValidators = s.fieldValidators := by
  unfold emitEvent
  rw [wakeAll_fieldValidators]

theorem wakeWaiter_steps_no_warn (s : Sys) (w : Waiter) (p : JSValue) :
    ∀ st ∈ (wakeWaiter s w p).2, isWarnStep st = false := by
  intro st hst
  unfold wakeWaiter at hst
  rcases h : w.sendsDestroy with _ | ⟨fid, sid⟩ <;> simp [h] at hst
  · subst hst; rfl
  · rcases hst with h1 | h1 <;> subst h1 <;> rfl

theorem wakeAll_steps_no_warn (ws : List Waiter) (s : Sys) (p : JSValue) :
    ∀ st ∈ (wakeAll s ws p).2, isWarnStep st = false := by
  induction ws generalizing s with
  | nil => intro st hst; simp [wakeAll] at hst
  | cons w rest ih =>
      intro st hst
      unfold wakeAll at hst
      simp only [List.mem_append] at hst
      rcases hst with h1 | h1
      · exact wakeWaiter_steps_no_warn s w p st h1
      · exact ih _ st h1

theorem emitEvent_no_warn (s : Sys) (key : String) (p : JSValue) :
    hasWarn (emitEvent s key p).2 = false := by
  unfold hasWarn
  rw [List.any_eq_false]
  intro st hst
  unfold emitEvent at hst
  dsimp only at hst
  rw [List.mem_append] at hst
  rcases hst with h1 | h1
  · rw [List.mem_cons] at h1
    rcases h1 with h2 | h2
    · subst h2; simp [isWarnStep]
    · rcases List.mem_map.mp h2 with ⟨l, _, h3⟩
      subst h3; simp [isWarnStep]
  · simp [wakeAll_steps_no_warn _ _ p st h1]

theorem wakeWaiter_resolves (s : Sys) (w : Waiter) (p : JSValue) (hp : w.post = none) :
    Step.opResolved w.key p ∈ (wakeWaiter s w p).2 := by
  unfold wakeWaiter
  rw [hp]
  cases w.sendsDestroy <;> simp

theorem emitEvent_resolves (s : Sys) (key : String) (p : JSValue) (w : Waiter)
    (hw : s.waiters.filter (fun x => x.key = key) = [w]) (hp : w.post = none) :
    Step.opResolved w.key p ∈ (emitEvent s key p).2 := by
  have h1 := wakeWaiter_resolves (Sys.mk s.fieldValidators s.patchListeners
    (s.waiters.filter (fun x => ¬ x.key = key))) w p hp
  unfold emitEvent
  rw [hw]
  dsimp only
  rw [List.mem_append]
  right
  simpa [wakeAll] using h1

theorem filter_eq_singleton_key {ws : List Waiter} {key : String} {w : Waiter}
    (hw : ws.filter (fun x => x.key = key) = [w]) : w.key = key := by
  have hmem : w ∈ ws.filter (fun x => x.key = key) := by
    rw [hw]; exact List.mem_singleton.mpr rfl
  have := List.of_mem_filter hmem
  simpa using this

theorem getField_cons_hit (k : String) (v : JSValue) (rest : List (String × JSValue)) :
    getField (.vobj ((k, v) :: rest)) k = v := by
  simp [getField, List.find?]

theorem getField_cons_miss (k0 k : String) (v0 : JSValue) (rest : List (String × JSValue))
    (h : ¬ k0 = k) : getField (.vobj ((k0, v0) :: rest)) k = getField (.vobj rest) k := by
  simp [getField, List.find?, h]

/-- How the handler reduces on a well-formed inbound `resolve`. -/
theorem handleMessage_resolve (s : Sys) (sid fid : String) (v : JSValue) :
    handleMessage s (resolveMsg sid fid v) =
      match mapGet s.fieldValidators (.vstr fid) with
      | none =>
          emitEvent { s with fieldValidators := mapDelete s.fieldValidators (.vstr fid) }
            (eventId sid fid "resolve") v
      | some cv =>
          if cv v = .vbool true then
            ((emitEvent { s with fieldValidators := mapDelete s.fieldValidators (.vstr fid) }
                (eventId sid fid "resolve") v).1,
             Step.sent (.warn (.vstr fid) (.vstr sid) (cv v)) ::
               (emitEvent { s with fieldValidators := mapDelete s.fieldValidators (.vstr fid) }
                  (eventId sid fid "resolve") v).2)
          else (s, [Step.sent (.warn (.vstr fid) (.vstr sid) (cv v))]) := by
  simp [handleMessage, resolveMsg, safeParse, truthy, getField, List.find?,
    jsToDisplayString, eventId]

/-- How the handler reduces on a well-formed inbound `patch`. -/
theorem handleMessage_patch (s : Sys) (sid fid : String) (d : JSValue) :
    handleMessage s (patchMsg sid fid d) = emitEvent s (eventId sid fid "patch") d := by
  simp [handleMessage, patchMsg, safeParse, truthy, getField, List.find?,
    jsToDisplayString, eventId]

/-! ### Claim theorems -/

/-- C1 (counterexample): the claim says that when the registered
validator returns `true` no warn message is sent; but with the text
default validator registered for `f1` and an inbound resolve carrying
`"Hello"` (which the validator accepts), the handler's reply trace
contains a `warn` message carrying `true` — the second variant sends the
warn unconditionally whenever a validator is registered. -/
theorem warn_sent_on_valid_submission_counterexample :
    textDefaultValidator (.vstr "Hello") = .vbool true ∧
    (handleMessage pendingTextFieldState (resolveMsg "s1" "f1" (.vstr "Hello"))).2 =
      [Step.sent (.warn (.vstr "f1") (.vstr "s1") (.vbool true)),
       Step.eventEmitted "s1:f1:resolve" (.vstr "Hello"),
       Step.sent (.destroy "f1" "s1"),
       Step.opResolved "s1:f1:resolve" (.vstr "Hello")] := by
  constructor
  · decide
  · rfl

/-- C1 (amended): for every inbound resolve event whose fieldId has a
registered validator, a warn message carrying the validation result is
sent as the first reply — also when the validator returns `true`; the
field's waiter is woken with the submitted value exactly when the
validator returns `true`, and exactly then the validator entry is
removed. -/
theorem resolve_with_validator_always_warns (s : Sys) (sid fid : String) (v : JSValue)
    (cv : JSValue → JSValue) (w : Waiter)
    (hget : mapGet s.fieldValidators (.vstr fid) = some cv)
    (hw : s.waiters.filter (fun x => x.key = eventId sid fid "resolve") = [w])
    (hpost : w.post = none) :
    (handleMessage s (resolveMsg sid fid v)).2.head? =
      some (Step.sent (.warn (.vstr fid) (.vstr sid) (cv v))) ∧
    (Step.opResolved (eventId sid fid "resolve") v ∈ (handleMessage s (resolveMsg sid fid v)).2 ↔
      cv v = .vbool true) ∧
    (handleMessage s (resolveMsg sid fid v)).1.fieldValidators =
      (if cv v = .vbool true then mapDelete s.fieldValidators (.vstr fid)
       else s.fieldValidators) := by
  have hkey := filter_eq_singleton_key hw
  rw [handleMessage_resolve, hget]
  dsimp only
  by_cases hv : cv v = .vbool true
  · simp only [if_pos hv]
    have hmem : Step.opResolved (eventId sid fid "resolve") v ∈
        (emitEvent { s with fieldValidators := mapDelete s.fieldValidators (.vstr fid) }
          (eventId sid fid "resolve") v).2 := by
      have := emitEvent_resolves
        { s with fieldValidators := mapDelete s.fieldValidators (.vstr fid) }
        (eventId sid fid "resolve") v w (by simpa using hw) hpost
      rwa [hkey] at this
    refine ⟨rfl, iff_of_true (List.mem_cons_of_mem _ hmem) hv, ?_⟩
    exact emitEvent_fieldValidators _ _ v
  · simp only [if_neg hv]
    refine ⟨rfl, iff_of_false ?_ hv, trivial⟩
    simp

/-- C1 (witness): the amended theorem applied at the text default
validator and an accepted value. -/
theorem resolve_with_validator_always_warns_witness :
    (handleMessage pendingTextFieldState (resolveMsg "s1" "f1" (.vstr "Hi"))).2.head? =
      some (Step.sent (.warn (.vstr "f1") (.vstr "s1") (textDefaultValidator (.vstr "Hi")))) ∧
    (Step.opResolved (eventId "s1" "f1" "resolve") (.vstr "Hi") ∈
        (handleMessage pendingTextFieldState (resolveMsg "s1" "f1" (.vstr "Hi"))).2 ↔
      textDefaultValidator (.vstr "Hi") = .vbool true) ∧
    (handleMessage pendingTextFieldState (resolveMsg "s1" "f1" (.vstr "Hi"))).1.fieldValidators =
      (if textDefaultValidator (.vstr "Hi") = .vbool true
       then mapDelete pendingTextFieldState.fieldValidators (.vstr "f1")
       else pendingTextFieldState.fieldValidators) :=
  resolve_with_validator_always_warns pendingTextFieldState "s1" "f1" (.vstr "Hi")
    textDefaultValidator ⟨eventId "s1" "f1" "resolve", none, some ("f1", "s1"), none⟩
    rfl rfl rfl

/-- C2 (counterexample): the claim says every field kind in standalone
mode sends exactly one destroy after a valid submission; the autocomplete
element resolves with the submitted value but sends zero destroy
messages (its resolve callback only removes the patch listeners). -/
theorem autocomplete_standalone_no_destroy_counterexample :
    autocompleteDefaultValidator (.vstr "x") = .vbool true ∧
    resolvedValues (standaloneRun .autocomplete {} (.vstr "x")) = [.vstr "x"] ∧
    destroyCount (standaloneRun .autocomplete {} (.vstr "x")) "f1" "s1" = 0 := by
  refine ⟨by decide, by decide, by decide⟩

/-- C2 (amended): for every field kind operated in standalone mode,
submitting a value the default validator accepts resolves the operation
with exactly that submitted value; exactly one destroy message for that
fieldId is sent afterward for every kind except autocomplete and
address, which send none. -/
theorem standalone_valid_submission_resolves (k : FieldKind) (v : JSValue)
    (h : defaultValidator k v = .vbool true) :
    resolvedValues (standaloneRun k {} v) = [v] ∧
    destroyCount (standaloneRun k {} v) "f1" "s1" =
      (if k = FieldKind.autocomplete ∨ k = FieldKind.address then 0 else 1) := by
  cases k <;> simp only [defaultValidator] at h <;>
    simp [standaloneRun, fieldSetup, opensPatchChannel, renderParams, renderTypeString,
      handleMessage_resolve, mapGet, mapSet, mapDelete, emitEvent, wakeAll, wakeWaiter,
      emptySys, eventId, defaultValidator, h, destroyCount, resolvedValues, isDestroyStep,
      List.find?, List.filter]

/-- C2 (witness): the amended theorem applied at the text field and
value `"Hello"`. -/
theorem standalone_valid_submission_resolves_witness :
    defaultValidator .text (.vstr "Hello") = .vbool true ∧
    (resolvedValues (standaloneRun .text {} (.vstr "Hello")) = [.vstr "Hello"] ∧
     destroyCount (standaloneRun .text {} (.vstr "Hello")) "f1" "s1" =
       (if FieldKind.text = FieldKind.autocomplete ∨ FieldKind.text = FieldKind.address
        then 0 else 1)) :=
  ⟨by decide, standalone_valid_submission_resolves .text (.vstr "Hello") (by decide)⟩

/-- C3 (counterexample): the claim says the patch listener of a
filterable table is removed when the resolve wait is satisfied; in fact
the table element never removes it — after the field resolves, an
inbound patch event for the field's key still sends a `patch` message. -/
theorem table_patch_listener_leak_counterexample :
    patchAfterResolveSteps .table
        { filterable := true, fetch := fun _ => .vstr "refreshed" }
        (.varr [.vstr "row"]) (.vobj [("page", .vnum 2), ("query", .vstr "q")]) =
      [Step.eventEmitted "s1:f1:patch" (.vobj [("page", .vnum 2), ("query", .vstr "q")]),
       Step.sent (.patch "f1" "s1" (.vstr "refreshed"))] := by
  rfl

/-- C3 (amended): the autocomplete and address elements remove their
patch listener exactly when the resolve wait is satisfied, so a later
inbound patch event for the field's key sends no patch message; the
filterable table element never removes its listener, so a later patch
event still produces a patch message. -/
theorem patch_listener_removal_on_resolve (v pd : JSValue) (f : JSValue → JSValue) :
    (patchAfterResolveSteps .autocomplete
        { fetch := f, customValidator := some (fun _ => .vbool true) } v pd =
      [Step.eventEmitted "s1:f1:patch" pd]) ∧
    (sysAfterResolve .autocomplete
        { fetch := f, customValidator := some (fun _ => .vbool true) } v).patchListeners = [] ∧
    (patchAfterResolveSteps .address
        { fetch := f, customValidator := some (fun _ => .vbool true) } v pd =
      [Step.eventEmitted "s1:f1:patch" pd]) ∧
    (sysAfterResolve .address
        { fetch := f, customValidator := some (fun _ => .vbool true) } v).patchListeners = [] ∧
    (patchAfterResolveSteps .table
        { filterable := true, fetch := f, customValidator := some (fun _ => .vbool true) } v pd =
      [Step.eventEmitted "s1:f1:patch" pd, Step.sent (.patch "f1" "s1" (f pd))]) ∧
    (sysAfterResolve .table
        { filterable := true, fetch := f, customValidator := some (fun _ => .vbool true) }
        v).patchListeners = [⟨"s1:f1:patch", "f1", "s1", f⟩] :=
  ⟨rfl, rfl, rfl, rfl, rfl, rfl⟩

/-- C4: an inbound resolve carrying a value the registered validator
rejects produces exactly one warn message, leaves the field's wait
unsatisfied and the validator entry in place; a subsequent inbound
resolve for the same fieldId carrying a valid value then resolves the
wait with that value.  Stated for every field kind with a caller-supplied
validator. -/
theorem reject_then_valid_resolve (k : FieldKind) (cv : JSValue → JSValue)
    (v1 v2 : JSValue) (r : String)
    (h1 : cv v1 = .vstr r) (h2 : cv v2 = .vbool true) :
    (twoResolveRun k cv v1 v2).1.2 =
      [Step.sent (.warn (.vstr "f1") (.vstr "s1") (.vstr r))] ∧
    mapGet (twoResolveRun k cv v1 v2).1.1.fieldValidators (.vstr "f1") = some cv ∧
    resolvedValues (twoResolveRun k cv v1 v2).1.2 = [] ∧
    resolvedValues (twoResolveRun k cv v1 v2).2.2 = [v2] := by
  cases k <;>
    simp [twoResolveRun, fieldSetup, opensPatchChannel, renderParams, renderTypeString,
      handleMessage_resolve, mapGet, mapSet, mapDelete, emitEvent, wakeAll, wakeWaiter,
      emptySys, eventId, h1, h2, resolvedValues, List.find?, List.filter]

/-- C4 (witness): the theorem applied at the text default validator
with the rejected empty string and then `"Hello"`. -/
theorem reject_then_valid_resolve_witness :
    textDefaultValidator (.vstr "") = .vstr "Required" ∧
    ((twoResolveRun .text textDefaultValidator (.vstr "") (.vstr "Hello")).1.2 =
       [Step.sent (.warn (.vstr "f1") (.vstr "s1") (.vstr "Required"))] ∧
     mapGet (twoResolveRun .text textDefaultValidator (.vstr "")
         (.vstr "Hello")).1.1.fieldValidators (.vstr "f1") = some textDefaultValidator ∧
     resolvedValues (twoResolveRun .text textDefaultValidator (.vstr "")
         (.vstr "Hello")).1.2 = [] ∧
     resolvedValues (twoResolveRun .text textDefaultValidator (.vstr "")
         (.vstr "Hello")).2.2 = [.vstr "Hello"]) :=
  ⟨by decide, reject_then_valid_resolve .text textDefaultValidator (.vstr "") (.vstr "Hello")
    "Required" (by decide) (by decide)⟩

/-- C5: a group of two field operations where the first resolves after
the second still returns results in builder order, and emits exactly one
groupComplete event and sends exactly one groupComplete message for the
session. -/
theorem group_returns_builder_order (vA vB : JSValue) :
    groupRun "s1" "g1" 2 [(1, vB), (0, vA)] =
      [Step.eventEmitted "s1:g1" (.varr [vA, vB]),
       Step.sent (.groupComplete "s1"),
       Step.opResolved "s1:g1" (.varr [vA, vB])] ∧
    ((groupRun "s1" "g1" 2 [(1, vB), (0, vA)]).filter
        (fun st => st = Step.sent (.groupComplete "s1"))).length = 1 ∧
    ((groupRun "s1" "g1" 2 [(1, vB), (0, vA)]).filter
        (fun st => match st with | Step.eventEmitted _ _ => true | _ => false)).length = 1 :=
  ⟨rfl, rfl, rfl⟩

/-- C6: in every field element the render message is the first setup
step, the validator registration comes strictly after it, and the wait
on the field's resolve key begins immediately after the registration —
so render precedes registration precedes waiting, for every kind, both
standalone and in group mode. -/
theorem render_before_validator_before_wait (k : FieldKind) (standalone : Bool)
    (opts : FieldOptions) :
    ∃ j, 0 < j ∧
      (fieldSetup k "s1" "f1" "L" standalone opts emptySys).2.get? 0 =
        some (Step.sent (.render "f1" "s1" (renderParams k opts.rawOptions "L"))) ∧
      (fieldSetup k "s1" "f1" "L" standalone opts emptySys).2.get? j =
        some (Step.validatorRegistered "f1") ∧
      (fieldSetup k "s1" "f1" "L" standalone opts emptySys).2.get? (j + 1) =
        some (Step.waitBegan (eventId "s1" "f1" "resolve")) := by
  by_cases hc : opensPatchChannel k opts.filterable
  · exact ⟨2, by simp, by simp [fieldSetup, hc], by simp [fieldSetup, hc],
      by simp [fieldSetup, hc]⟩
  · exact ⟨1, by simp, by simp [fieldSetup, hc], by simp [fieldSetup, hc],
      by simp [fieldSetup, hc]⟩

/-- C7: the text default validator accepts exactly the nonempty strings,
the number default validator accepts exactly the numbers, and the email
default validator accepts exactly the strings containing an `@`
character. -/
theorem default_validator_characterizations :
    (∀ v, textDefaultValidator v = .vbool true ↔ ∃ s, v = .vstr s ∧ s ≠ "") ∧
    (∀ v, numberDefaultValidator v = .vbool true ↔ ∃ n, v = .vnum n) ∧
    (∀ v, emailDefaultValidator v = .vbool true ↔
      ∃ s, v = .vstr s ∧ s.contains '@' = true) := by
  refine ⟨fun v => ?_, fun v => ?_, fun v => ?_⟩ <;> cases v <;>
    simp [textDefaultValidator, numberDefaultValidator, emailDefaultValidator]

/-- C8 (counterexample): the claim says a non-conforming payload is
silently dropped with no state change; but the JSON object
`{action: "startSession"}` with no sessionId or user is processed: the
handler emits a startSession event with undefined fields and sends an
updatePeers message. -/
theorem nonconforming_payload_processed_counterexample :
    (handleMessage emptySys (.json (.vobj [("action", .vstr "startSession")]))).2 =
      [Step.eventEmitted "startSession"
        (.vobj [("sessionId", .vundefined), ("user", .vundefined)]),
       Step.sent .updatePeers] := by
  decide

/-- C8 (amended): decoding never raises (the handler is a total
function); a payload that fails to parse, parses to a falsy value, or
whose action field is missing or not one of startSession/patch/resolve
is dropped with no state change and no output; but a payload carrying a
recognized action is processed even when its remaining fields are
missing or ill-typed. -/
theorem malformed_or_unknown_action_dropped (s : Sys) (raw : RawPayload)
    (h : getField (safeParse raw) "action" ∉
      ([.vstr "startSession", .vstr "patch", .vstr "resolve"] : List JSValue)) :
    handleMessage s raw = (s, []) := by
  have h1 : ¬ getField (safeParse raw) "action" = .vstr "startSession" :=
    fun hc => h (by simp [hc])
  have h2 : ¬ getField (safeParse raw) "action" = .vstr "patch" :=
    fun hc => h (by simp [hc])
  have h3 : ¬ getField (safeParse raw) "action" = .vstr "resolve" :=
    fun hc => h (by simp [hc])
  unfold handleMessage
  by_cases ht : truthy (safeParse raw) <;> simp [ht, h1, h2, h3]

/-- C8 (witness): the amended theorem applied to a payload that is not
valid JSON. -/
theorem malformed_or_unknown_action_dropped_witness :
    handleMessage emptySys (.invalidJson "oops") = (emptySys, []) :=
  malformed_or_unknown_action_dropped emptySys (.invalidJson "oops") (by decide)

/-- C9: an inbound resolve whose fieldId has no registered validator
wakes the waiter for that (sessionId, fieldId) resolve key with the raw
submitted value — the handler's no-validator branch emits directly
without invoking any validator — and no warn message is sent. -/
theorem unvalidated_resolve_wakes_raw_value (s : Sys) (sid fid : String) (v : JSValue)
    (w : Waiter)
    (hget : mapGet s.fieldValidators (.vstr fid) = none)
    (hw : s.waiters.filter (fun x => x.key = eventId sid fid "resolve") = [w])
    (hpost : w.post = none) :
    Step.opResolved (eventId sid fid "resolve") v ∈
      (handleMessage s (resolveMsg sid fid v)).2 ∧
    hasWarn (handleMessage s (resolveMsg sid fid v)).2 = false := by
  have hkey := filter_eq_singleton_key hw
  rw [handleMessage_resolve, hget]
  dsimp only
  constructor
  · have := emitEvent_resolves
      { s with fieldValidators := mapDelete s.fieldValidators (.vstr fid) }
      (eventId sid fid "resolve") v w (by simpa using hw) hpost
    rwa [hkey] at this
  · exact emitEvent_no_warn _ _ v

/-- C9 (witness): the theorem applied at a state with a pending waiter
and no validator for the field. -/
theorem unvalidated_resolve_wakes_raw_value_witness :
    Step.opResolved (eventId "s1" "f1" "resolve") (.vstr "raw") ∈
      (handleMessage pendingUnvalidatedFieldState (resolveMsg "s1" "f1" (.vstr "raw"))).2 ∧
    hasWarn (handleMessage pendingUnvalidatedFieldState
      (resolveMsg "s1" "f1" (.vstr "raw"))).2 = false :=
  unvalidated_resolve_wakes_raw_value pendingUnvalidatedFieldState "s1" "f1" (.vstr "raw")
    ⟨eventId "s1" "f1" "resolve", none, none, none⟩ rfl rfl rfl

/-- C10: the colorpicker render descriptor's `inline` field is `true`
for every boolean-or-absent caller option — `options?.inline || true`
coerces an explicit `false` back to `true`. -/
theorem colorpicker_inline_forced_true (opts : JSValue) (label : String)
    (h : getField opts "inline" = .vbool false ∨ getField opts "inline" = .vbool true ∨
      getField opts "inline" = .vundefined) :
    (renderParams .colorpicker opts label).find? (fun p => p.1 = "inline") =
      some ("inline", .vbool true) := by
  rcases h with h | h | h <;> simp [renderParams, jsOr, truthy, h, List.find?]

/-- C10 (witness): the theorem applied to a caller explicitly passing
`inline: false`. -/
theorem colorpicker_inline_forced_true_witness :
    (getField (JSValue.vobj [("inline", JSValue.vbool false)]) "inline" = .vbool false ∨
     getField (JSValue.vobj [("inline", JSValue.vbool false)]) "inline" = .vbool true ∨
     getField (JSValue.vobj [("inline", JSValue.vbool false)]) "inline" = .vundefined) ∧
    (renderParams .colorpicker (JSValue.vobj [("inline", JSValue.vbool false)]) "L").find?
        (fun p => p.1 = "inline") = some ("inline", .vbool true) :=
  ⟨Or.inl (by decide),
   colorpicker_inline_forced_true (JSValue.vobj [("inline", JSValue.vbool false)]) "L"
     (Or.inl (by decide))⟩

end InternalStack
